import Mathlib

/- Formal model of the EmailNotixion IMAP mail poller
(src/xmail.py, src/core/monitor.py, src/core/account.py, src/main.py).

Modelling conventions.  IMAP message identifiers (UIDs) are the raw byte
strings returned by `UID SEARCH` and are compared with Python bytes
ordering; they are modelled as lists of byte values (`List Nat`).
Wall-clock instants are modelled as integer POSIX seconds, since
`check_and_notify` consumes the parsed Date only through `.timestamp()`
and truthiness.  The network is modelled as an environment record giving
the outcome of each IMAP call a poll performs; a raised
connection/protocol exception is a flag of that record. -/


/-- Python bytes comparison `a < b`: lexicographic by byte value, with a
strict prefix comparing smaller.  This is the order used by
`uid > self.last_uid` in `EmailNotifier.check_and_notify`. -/
def bytesLt : List Nat → List Nat → Bool
  | [], [] => false
  | [], _ :: _ => true
  | _ :: _, [] => false
  | a :: as, b :: bs => if a < b then true else if b < a then false else bytesLt as bs

/-- Numeric value denoted by a decimal-digit byte string (ASCII codes
48–57), i.e. the UID number the identifier stands for on the wire. -/
def uidNum : List Nat → Nat
  | [] => 0
  | d :: ds => (d - 48) * 10 ^ ds.length + uidNum ds

/- Model of `EmailNotifier.check_and_notify` (src/xmail.py lines 222-313).

One fetched message, as `_get_email_info` returns it: the parsed Date
(`none` when `parsedate_tz` fails), the decoded subject and the processed
body.  The poll environment records the outcome of every IMAP call the
poll performs: whether `_connect` succeeds, the UID list produced by
`UID SEARCH UNSEEN` (`none` when the call fails or yields no data — both
are swallowed by the inner `try`), whether `UID SEARCH ALL` raises (an
uncaught protocol error reaching the outer `except`), its UID list
otherwise, and the result of `UID FETCH` per UID (`none` when
`_get_email_info` returns `None`). -/

structure EmailInfo where
  time : Option Int
  subject : String
  content : String
deriving DecidableEq

structure NotifierState where
  last_uid : Option (List Nat)
  mailConnected : Bool
  last_successful_check : Option Int
deriving DecidableEq

structure PollEnv where
  connectOk : Bool
  unseen : Option (List (List Nat))
  allRaises : Bool
  allRes : Option (List (List Nat))
  fetch : List Nat → Option EmailInfo

/-- The guard `self.last_uid is None or uid > self.last_uid`. -/
def cursorLt (cursor : Option (List Nat)) (uid : List Nat) : Bool :=
  match cursor with
  | none => true
  | some c => bytesLt c uid

/-- The unread-mail loop (src/xmail.py lines 244-262): accumulator is
(processed_uids, last_uid, new_emails); a fetched message within the
trailing 120 s window or with unparseable Date is appended to
`new_emails`; any fetched message advances `last_uid`. -/
def unseenLoop (fetch : List Nat → Option EmailInfo) (now : Int) :
    List (List Nat) → List (List Nat) × Option (List Nat) × List EmailInfo →
    List (List Nat) × Option (List Nat) × List EmailInfo
  | [], acc => acc
  | uid :: rest, (processed, cursor, emails) =>
    if uid ∈ processed then
      unseenLoop fetch now rest (processed, cursor, emails)
    else
      if cursorLt cursor uid then
        match fetch uid with
        | none => unseenLoop fetch now rest (processed ++ [uid], cursor, emails)
        | some info =>
          match info.time with
          | some ts =>
            if now - 120 < ts then
              unseenLoop fetch now rest (processed ++ [uid], some uid, emails ++ [info])
            else
              unseenLoop fetch now rest (processed ++ [uid], some uid, emails)
          | none =>
            unseenLoop fetch now rest (processed ++ [uid], some uid, emails ++ [info])
      else
        unseenLoop fetch now rest (processed ++ [uid], cursor, emails)

/-- The all-mail loop (src/xmail.py lines 283-301); it runs only after the
baseline check, so the cursor is a concrete UID here. -/
def allLoop (fetch : List Nat → Option EmailInfo) (now : Int) :
    List (List Nat) → List (List Nat) × List Nat × List EmailInfo →
    List (List Nat) × List Nat × List EmailInfo
  | [], acc => acc
  | uid :: rest, (processed, c, emails) =>
    if uid ∈ processed then
      allLoop fetch now rest (processed, c, emails)
    else
      if bytesLt c uid then
        match fetch uid with
        | none => allLoop fetch now rest (processed ++ [uid], c, emails)
        | some info =>
          match info.time with
          | some ts =>
            if now - 120 < ts then
              allLoop fetch now rest (processed ++ [uid], uid, emails ++ [info])
            else
              allLoop fetch now rest (processed ++ [uid], uid, emails)
          | none =>
            allLoop fetch now rest (processed ++ [uid], uid, emails ++ [info])
      else
        allLoop fetch now rest (processed, c, emails)

/-- The whole UNSEEN pass: no-op when the search fails or returns no data
(the inner `try` swallows the error). -/
def unseenPass (env : PollEnv) (now : Int) (cursor0 : Option (List Nat)) :
    List (List Nat) × Option (List Nat) × List EmailInfo :=
  match env.unseen with
  | some uids => unseenLoop env.fetch now uids ([], cursor0, [])
  | none => ([], cursor0, [])

/-- Model of `EmailNotifier.check_and_notify`: returns the new notifier state and
the poll result (`none` models Python `None`). -/
def check_and_notify (st : NotifierState) (env : PollEnv) (now : Int) :
    NotifierState × Option (List EmailInfo) :=
  if env.connectOk = false then
    ({ st with mailConnected := false }, none)
  else
    let up := unseenPass env now st.last_uid
    let processed := up.1
    let cursor := up.2.1
    let emails := up.2.2
    if env.allRaises then
      ({ st with last_uid := cursor, mailConnected := false }, none)
    else
      match env.allRes with
      | none =>
        if emails.isEmpty then
          ({ st with last_uid := cursor, mailConnected := true }, none)
        else
          ({ st with last_uid := cursor, mailConnected := true, last_successful_check := some now }, some emails)
      | some allUids =>
        match cursor with
        | none =>
          ({ st with last_uid := allUids.getLast?, mailConnected := true, last_successful_check := some now }, none)
        | some c =>
          let r := allLoop env.fetch now allUids (processed, c, emails)
          if r.2.2.isEmpty then
            ({ st with last_uid := some r.2.1, mailConnected := true, last_successful_check := some now }, none)
          else
            ({ st with last_uid := some r.2.1, mailConnected := true, last_successful_check := some now }, some r.2.2)

/-- A sequence of polls, each against its own environment and clock. -/
def pollSeq (st : NotifierState) : List (PollEnv × Int) → NotifierState
  | [] => st
  | (env, now) :: rest => pollSeq (check_and_notify st env now).1 rest

/-- Cursor ordering: a cursor value is followed only by itself or by a
strictly byte-greater identifier; an unset cursor precedes everything. -/
def cursorLe (a b : Option (List Nat)) : Prop :=
  match a with
  | none => True
  | some c => ∃ d, b = some d ∧ (d = c ∨ bytesLt c d = true)

/-- Emission test the recency policy applies to one fetched message:
notify when the Date is unparseable or lies within the trailing 120 s
window of the current wall clock. -/
def recentOrUnknown (t : Option Int) (now : Int) : Bool :=
  match t with
  | none => true
  | some ts => decide (now - 120 < ts)

/- Model of the orchestrator (src/core/monitor.py, src/core/account.py,
src/main.py).  Python attribute lookup is modelled explicitly: the method
set of `EmailNotifier` is listed from src/xmail.py, and calling a missing
method is an `AttributeError`. -/

inductive PyErr where
  | attributeError
deriving DecidableEq

/-- The methods the class `EmailNotifier` defines (src/xmail.py). -/
def emailNotifierMethods : List String :=
  ["__init__", "_log", "test_connection", "_connect", "_html_to_text",
   "_get_email_content", "_process_content", "check_and_notify",
   "_reset_connection_state", "_get_email_info", "reset_connection", "run"]

/-- Calling `notifier.cleanup()` on every poller (src/core/monitor.py
lines 195-196): succeeds vacuously on an empty poller set; with at least
one poller it dispatches the attribute `cleanup` on `EmailNotifier`,
raising `AttributeError` when the class does not define it. -/
def cleanupAllNotifiers (users : List String) : Except PyErr Unit :=
  match users with
  | [] => Except.ok ()
  | _ :: _ =>
    if "cleanup" ∈ emailNotifierMethods then Except.ok ()
    else Except.error PyErr.attributeError

structure MonitorState where
  isRunning : Bool
  taskActive : Bool
  notifierUsers : List String
deriving DecidableEq

/-- Model of `EmailMonitor.stop` (src/core/monitor.py lines 179-198): no-op unless
running; otherwise clears the running flag, cancels and awaits the task
(bounded by STOP_TIMEOUT, modelled as completing), then calls
`notifier.cleanup()` on every poller and clears the poller map. -/
def stopMonitor (st : MonitorState) : Except PyErr MonitorState :=
  if st.isRunning = false then Except.ok st
  else
    let st1 : MonitorState := { isRunning := false, taskActive := false, notifierUsers := st.notifierUsers }
    match cleanupAllNotifiers st1.notifierUsers with
    | Except.ok () => Except.ok { st1 with notifierUsers := [] }
    | Except.error e => Except.error e

/- `EmailMonitor.init_notifiers` (src/core/monitor.py lines 61-87) and
`EmailNotixion._init_notifiers` (src/main.py lines 182-196).  A poller's
relevant persisted state is (user, last_uid, last_successful_check); a
valid account is a parsed (host, user, password) triple. -/

structure CoreNotifier where
  user : String
  last_uid : Option (List Nat)
  last_successful_check : Option Int
deriving DecidableEq

/-- Model of `EmailMonitor.init_notifiers`: captures (last_uid,
last_successful_check) per user, calls `notifier.cleanup()` on each old
poller — which raises `AttributeError` as soon as one old poller exists,
since `EmailNotifier` has no `cleanup` — and otherwise rebuilds the map
from the valid accounts, restoring captured state by user lookup. -/
def init_notifiers (old : List CoreNotifier) (validAccounts : List (String × String × String)) :
    Except PyErr (List CoreNotifier) :=
  match old with
  | [] =>
    Except.ok (validAccounts.map (fun a =>
      { user := a.2.1, last_uid := none, last_successful_check := none }))
  | _ :: _ =>
    if "cleanup" ∈ emailNotifierMethods then
      Except.ok (validAccounts.map (fun a =>
        match old.find? (fun o => o.user == a.2.1) with
        | some o => { user := a.2.1, last_uid := o.last_uid, last_successful_check := o.last_successful_check }
        | none => { user := a.2.1, last_uid := none, last_successful_check := none }))
    else Except.error PyErr.attributeError

/-- Model of `EmailNotixion._init_notifiers` (src/main.py): clears the poller map
and creates a fresh `EmailNotifier` per valid account; no state from the
previous pollers is consulted, so every new poller starts with
`last_uid = None`. -/
def init_notifiers_main (validAccounts : List (String × String × String)) :
    List CoreNotifier :=
  validAccounts.map (fun a =>
    { user := a.2.1, last_uid := none, last_successful_check := none })

/- Model of the dedup window (src/core/monitor.py lines 89-103 and its use
at lines 130-139).  The poller hands the monitor a datetime; dedup
consumes it only through truthiness and `strftime('%Y%m%d%H%M')`, so here
a datetime is its calendar fields. -/

structure PyDateTime where
  year : Nat
  month : Nat
  day : Nat
  hour : Nat
  minute : Nat
  second : Nat
deriving DecidableEq

def pad2 (n : Nat) : String :=
  if n < 10 then "0" ++ toString n else toString n

def pad4 (n : Nat) : String :=
  if n < 10 then "000" ++ toString n
  else if n < 100 then "00" ++ toString n
  else if n < 1000 then "0" ++ toString n
  else toString n

/-- Rendering `email_time.strftime('%Y%m%d%H%M')`: the minute-truncated timestamp
string used in the dedup key (the seconds field is not rendered). -/
def strftimeYMDHM (t : PyDateTime) : String :=
  pad4 t.year ++ pad2 t.month ++ pad2 t.day ++ pad2 t.hour ++ pad2 t.minute

/-- Model of `EmailMonitor._get_dedup_key`. -/
def get_dedup_key (user subject : String) (t : Option PyDateTime) : String :=
  user ++ "|" ++ subject ++ "|" ++
    (match t with
     | some tt => strftimeYMDHM tt
     | none => "unknown")

structure DedupState where
  sent_emails : List String
  cleanup_time : Int
deriving DecidableEq

def DEDUP_CLEANUP_INTERVAL : Int := 300

/-- Model of `EmailMonitor._is_duplicate`: clears the whole sent-set in bulk when
its age exceeds DEDUP_CLEANUP_INTERVAL, then answers whether the key was
already recorded, recording it when not.  The monitor loop forwards a
notification to the delivery targets iff this returns `false`. -/
def is_duplicate (st : DedupState) (now : Int) (user subject : String)
    (t : Option PyDateTime) : Bool × DedupState :=
  let st1 := if DEDUP_CLEANUP_INTERVAL < now - st.cleanup_time then
    { sent_emails := [], cleanup_time := now } else st
  let key := get_dedup_key user subject t
  if key ∈ st1.sent_emails then (true, st1)
  else (false, { st1 with sent_emails := key :: st1.sent_emails })

/- Model of the content extraction (src/xmail.py `_html_to_text` lines
99-140 and `_process_content` lines 205-220).  Text is a `List Char`.
Each `re.sub`/`str.replace` is embedded as a left-to-right scan; scans
whose recursion is not structural carry a fuel argument instantiated with
the input length, which every step strictly decreases, so the fuel never
runs out on the actual argument. -/

/-- The characters `\s` (and `.split()`/`.strip()`) treat as whitespace,
for the ASCII range the claims exercise. -/
def isPySpace (c : Char) : Bool :=
  c = ' ' || c = '\t' || c = '\n' || c = '\x0b' || c = '\x0c' || c = '\r'

/-- Does `pat` occur at the head of `s`? -/
def headMatch : List Char → List Char → Bool
  | [], _ => true
  | _ :: _, [] => false
  | p :: ps, c :: cs => p == c && headMatch ps cs

/-- Python `str.replace(pat, rep)`: leftmost, non-overlapping, the
replacement is not rescanned. -/
def replaceAllFuel (pat rep : List Char) : Nat → List Char → List Char
  | 0, s => s
  | _ + 1, [] => []
  | fuel + 1, c :: cs =>
    if headMatch pat (c :: cs) then
      rep ++ replaceAllFuel pat rep fuel ((c :: cs).drop pat.length)
    else c :: replaceAllFuel pat rep fuel cs

def replaceAll (pat rep s : List Char) : List Char :=
  replaceAllFuel pat rep s.length s

/-- Python `str.split()` with no separator: skip whitespace runs, collect
maximal non-whitespace runs. -/
def splitWordsAux : List Char → List Char → List (List Char)
  | cur, [] => if cur.isEmpty then [] else [cur]
  | cur, c :: cs =>
    if isPySpace c then
      if cur.isEmpty then splitWordsAux [] cs else cur :: splitWordsAux [] cs
    else splitWordsAux (cur ++ [c]) cs

def splitWords (s : List Char) : List (List Char) :=
  splitWordsAux [] s

/-- Python `' '.join(words)`. -/
def joinWords : List (List Char) → List Char
  | [] => []
  | [w] => w
  | w :: ws => w ++ ' ' :: joinWords ws

/-- Left half of Python `str.strip()`: drop whitespace from the left. -/
def stripL (s : List Char) : List Char :=
  s.dropWhile isPySpace

/-- Python `str.strip()`: drop whitespace from both ends. -/
def stripStr (s : List Char) : List Char :=
  ((stripL s).reverse.dropWhile isPySpace).reverse

/-- The canonical no-content placeholder `"（无文本内容）"`. -/
def placeholderText : List Char := "（无文本内容）".toList

/-- The whitespace normalization `_process_content` performs before
truncating: newline variants to spaces, then `' '.join(text.split())`. -/
def normalizeText (s : List Char) : List Char :=
  joinWords (splitWords (replaceAll ['\n'] [' ']
    (replaceAll ['\r'] [' '] (replaceAll ['\r', '\n'] [' '] s))))

/-- Model of `EmailNotifier._process_content`. -/
def process_content (text_num : Nat) (s : List Char) : List Char :=
  if s.isEmpty then placeholderText
  else
    let t := normalizeText s
    let t2 := if text_num < t.length then t.take text_num ++ ['.', '.', '.'] else t
    if (stripStr t2).isEmpty then placeholderText else stripStr t2

/-- Value of an uppercase-hex digit, as matched by `(?:=[0-9A-F]{2})+`. -/
def hexVal (c : Char) : Option Nat :=
  if '0' ≤ c ∧ c ≤ '9' then some (c.toNat - 48)
  else if 'A' ≤ c ∧ c ≤ 'F' then some (c.toNat - 55)
  else none

/-- Greedy continuation of a quoted-printable run: parse as many
consecutive `=HH` groups as possible, returning the bytes and the rest. -/
def qpGroups : List Char → List Nat × List Char
  | '=' :: h1 :: h2 :: rest =>
    (match hexVal h1, hexVal h2 with
     | some a, some b =>
       let r := qpGroups rest
       ((16 * a + b) :: r.1, r.2)
     | _, _ => ([], '=' :: h1 :: h2 :: rest))
  | l => ([], l)

def utf8Cont (b : Nat) : Bool := 128 ≤ b && b ≤ 191

/-- Model of `bytes.decode('utf-8', errors='ignore')`: standard UTF-8 decoding,
skipping bytes that do not start a valid sequence (the error handler
drops undecodable input). -/
def utf8IgnoreFuel : Nat → List Nat → List Char
  | 0, _ => []
  | _ + 1, [] => []
  | fuel + 1, b :: bs =>
    if b < 128 then Char.ofNat b :: utf8IgnoreFuel fuel bs
    else if 194 ≤ b && b ≤ 223 then
      match bs with
      | b2 :: bs2 =>
        if utf8Cont b2 then
          Char.ofNat ((b - 192) * 64 + (b2 - 128)) :: utf8IgnoreFuel fuel bs2
        else utf8IgnoreFuel fuel bs
      | [] => []
    else if 224 ≤ b && b ≤ 239 then
      match bs with
      | b2 :: b3 :: bs3 =>
        if (if b = 224 then 160 ≤ b2 && b2 ≤ 191
            else if b = 237 then 128 ≤ b2 && b2 ≤ 159
            else utf8Cont b2) && utf8Cont b3 then
          Char.ofNat ((b - 224) * 4096 + (b2 - 128) * 64 + (b3 - 128)) ::
            utf8IgnoreFuel fuel bs3
        else utf8IgnoreFuel fuel bs
      | _ => []
    else if 240 ≤ b && b ≤ 244 then
      match bs with
      | b2 :: b3 :: b4 :: bs4 =>
        if (if b = 240 then 144 ≤ b2 && b2 ≤ 191
            else if b = 244 then 128 ≤ b2 && b2 ≤ 143
            else utf8Cont b2) && utf8Cont b3 && utf8Cont b4 then
          Char.ofNat ((b - 240) * 262144 + (b2 - 128) * 4096 + (b3 - 128) * 64
            + (b4 - 128)) :: utf8IgnoreFuel fuel bs4
        else utf8IgnoreFuel fuel bs
      | _ => []
    else utf8IgnoreFuel fuel bs

/-- Model of `re.sub(r'(?:=[0-9A-F]{2})+', decode_quoted_printable, text)`: each
maximal run of uppercase-hex `=HH` groups is hex-decoded and UTF-8
decoded with errors ignored. -/
def qpSubFuel : Nat → List Char → List Char
  | 0, s => s
  | _ + 1, [] => []
  | fuel + 1, '=' :: h1 :: h2 :: cs =>
    (match hexVal h1, hexVal h2 with
     | some a, some b =>
       let r := qpGroups cs
       utf8IgnoreFuel ((16 * a + b) :: r.1).length ((16 * a + b) :: r.1)
         ++ qpSubFuel fuel r.2
     | _, _ => '=' :: qpSubFuel fuel (h1 :: h2 :: cs))
  | fuel + 1, c :: cs => c :: qpSubFuel fuel cs

def qpSub (s : List Char) : List Char := qpSubFuel s.length s

/-- Case-insensitive head match against an all-lowercase pattern. -/
def headMatchCI : List Char → List Char → Bool
  | [], _ => true
  | _ :: _, [] => false
  | p :: ps, c :: cs => p == c.toLower && headMatchCI ps cs

/-- Skip `[^>]*` and consume the following `>`, or fail. -/
def afterGt : List Char → Option (List Char)
  | [] => none
  | '>' :: cs => some cs
  | _ :: cs => afterGt cs

/-- Drop through the first case-insensitive occurrence of `pat`. -/
def dropThroughCI (pat : List Char) : List Char → Option (List Char)
  | [] => none
  | c :: cs =>
    if headMatchCI pat (c :: cs) then some ((c :: cs).drop pat.length)
    else dropThroughCI pat cs

/-- Model of `re.sub(r'<tag[^>]*>.*?</tag>', '', text, DOTALL | IGNORECASE)`:
remove each block from an opening `<tag...>` through the nearest closing
`</tag>`; without a closing tag there is no match at that position. -/
def stripBlockFuel (tag : List Char) : Nat → List Char → List Char
  | 0, s => s
  | _ + 1, [] => []
  | fuel + 1, c :: cs =>
    if headMatchCI ('<' :: tag) (c :: cs) then
      match afterGt ((c :: cs).drop (tag.length + 1)) with
      | some rest =>
        match dropThroughCI ('<' :: '/' :: (tag ++ ['>'])) rest with
        | some rest2 => stripBlockFuel tag fuel rest2
        | none => c :: stripBlockFuel tag fuel cs
      | none => c :: stripBlockFuel tag fuel cs
    else c :: stripBlockFuel tag fuel cs

def stripBlock (tag s : List Char) : List Char :=
  stripBlockFuel tag s.length s

/-- Model of `re.sub(r'<[^>]+>', '', text)`: remove `<`, at least one non-`>`
character, and the closing `>`. -/
def stripTagsFuel : Nat → List Char → List Char
  | 0, s => s
  | _ + 1, [] => []
  | fuel + 1, c :: cs =>
    if c == '<' then
      match cs with
      | [] => ['<']
      | c2 :: _ =>
        if c2 == '>' then c :: stripTagsFuel fuel cs
        else
          match afterGt cs with
          | some rest => stripTagsFuel fuel rest
          | none => c :: stripTagsFuel fuel cs
    else c :: stripTagsFuel fuel cs

def stripTags (s : List Char) : List Char := stripTagsFuel s.length s

/-- The fixed entity table of `_html_to_text`, in dict insertion order
(the order the sequential replaces run in). -/
def htmlEntities : List (List Char × List Char) :=
  [("&nbsp;".toList, [' ']), ("&lt;".toList, ['<']), ("&gt;".toList, ['>']),
   ("&amp;".toList, ['&']), ("&quot;".toList, ['"']), ("&apos;".toList, ['\'']),
   ("&copy;".toList, ['©']), ("&reg;".toList, ['®']), ("&trade;".toList, ['™']),
   ("&mdash;".toList, ['—']), ("&ndash;".toList, ['–']),
   ("&hellip;".toList, ['.', '.', '.']), ("&laquo;".toList, ['«']),
   ("&raquo;".toList, ['»'])]

def applyEntities (s : List Char) : List Char :=
  htmlEntities.foldl (fun t pr => replaceAll pr.1 pr.2 t) s

/-- Model of `re.sub(r'\s+', ' ', text)`: collapse every whitespace run to one
space. -/
def collapseWSFuel : Nat → List Char → List Char
  | 0, s => s
  | _ + 1, [] => []
  | fuel + 1, c :: cs =>
    if isPySpace c then ' ' :: collapseWSFuel fuel (cs.dropWhile isPySpace)
    else c :: collapseWSFuel fuel cs

def collapseWS (s : List Char) : List Char := collapseWSFuel s.length s

/-- Model of `EmailNotifier._html_to_text`. -/
def html_to_text (s : List Char) : List Char :=
  if s.isEmpty then []
  else
    let t1 := qpSub s
    let t2 := replaceAll "=3D".toList ['='] t1
    let t3 := stripBlock "style".toList t2
    let t4 := stripBlock "script".toList t3
    let t5 := stripTags t4
    let t6 := applyEntities t5
    let t7 := collapseWS t6
    stripStr t7

/- Theorems. -/

theorem uidNum_lt_pow (l : List Nat) (h : ∀ d ∈ l, d ≤ 57) :
    uidNum l < 10 ^ l.length := by
  induction l with
  | nil => simp [uidNum]
  | cons d ds ih =>
    have hd : d ≤ 57 := h d (List.mem_cons_self d ds)
    have hds : uidNum ds < 10 ^ ds.length :=
      ih (fun x hx => h x (List.mem_cons_of_mem d hx))
    have h9 : d - 48 ≤ 9 := by omega
    have hpow : (0:Nat) < 10 ^ ds.length := Nat.pos_pow_of_pos _ (by norm_num)
    show (d - 48) * 10 ^ ds.length + uidNum ds < 10 ^ (ds.length + 1)
    have h1 : (d - 48) * 10 ^ ds.length ≤ 9 * 10 ^ ds.length :=
      Nat.mul_le_mul_right _ h9
    have h2 : 10 ^ (ds.length + 1) = 10 * 10 ^ ds.length := by
      rw [pow_succ]; ring
    omega

theorem bytesLt_uidNum_mono : ∀ a b : List Nat, a.length = b.length →
    (∀ d ∈ a, 48 ≤ d ∧ d ≤ 57) → (∀ d ∈ b, 48 ≤ d ∧ d ≤ 57) →
    bytesLt a b = true → uidNum a < uidNum b := by
  intro a
  induction a with
  | nil =>
    intro b hl _ _ hlt
    cases b with
    | nil => simp [bytesLt] at hlt
    | cons y bs => simp at hl
  | cons x as ih =>
    intro b hl ha hb hlt
    cases b with
    | nil => simp at hl
    | cons y bs =>
      have hlen : as.length = bs.length := by simpa using hl
      have hx : 48 ≤ x ∧ x ≤ 57 := ha x (by simp)
      have hy : 48 ≤ y ∧ y ≤ 57 := hb y (by simp)
      simp only [bytesLt] at hlt
      by_cases hxy : x < y
      · have hA : uidNum as < 10 ^ as.length :=
        uidNum_lt_pow as (fun d hd => (ha d (List.mem_cons_of_mem x hd)).2)
        have hB : uidNum bs < 10 ^ bs.length :=
          uidNum_lt_pow bs (fun d hd => (hb d (List.mem_cons_of_mem y hd)).2)
        show (x - 48) * 10 ^ as.length + uidNum as
            < (y - 48) * 10 ^ bs.length + uidNum bs
        rw [hlen]
        have hstep : x - 48 + 1 ≤ y - 48 := by omega
        have h1 : (x - 48 + 1) * 10 ^ bs.length ≤ (y - 48) * 10 ^ bs.length :=
          Nat.mul_le_mul_right _ hstep
        have h2 : (x - 48 + 1) * 10 ^ bs.length
            = (x - 48) * 10 ^ bs.length + 10 ^ bs.length := by ring
        rw [hlen] at hA
        omega
      · by_cases hyx : y < x
        · simp [hxy, hyx] at hlt
        · have hxy2 : x = y := by omega
          subst hxy2
          simp [hxy] at hlt
          have := ih bs hlen
            (fun d hd => ha d (List.mem_cons_of_mem x hd))
            (fun d hd => hb d (List.mem_cons_of_mem x hd)) hlt
          show (x - 48) * 10 ^ as.length + uidNum as
              < (x - 48) * 10 ^ bs.length + uidNum bs
          rw [hlen]
          omega

theorem bytesLt_eq_of_not : ∀ a b : List Nat, a.length = b.length →
    bytesLt a b = false → bytesLt b a = false → a = b := by
  intro a
  induction a with
  | nil =>
    intro b hl _ _
    cases b with
    | nil => rfl
    | cons y bs => simp at hl
  | cons x as ih =>
    intro b hl hab hba
    cases b with
    | nil => simp at hl
    | cons y bs =>
      have hlen : as.length = bs.length := by simpa using hl
      simp only [bytesLt] at hab hba
      by_cases hxy : x < y
      · simp [hxy] at hab
      · by_cases hyx : y < x
        · simp [hyx, hxy] at hba
        · have hxy2 : x = y := by omega
          subst hxy2
          simp [hxy] at hab hba
          rw [ih bs hlen hab hba]

/-- C1 (amended): for identifiers of the same byte length consisting of
decimal digits, the Python byte-string comparison used by the poller
agrees with numeric UID order: `a < b` as bytes iff the numeric UID of
`a` is smaller.  (Across different lengths the two orders disagree; see
the counterexample.) -/
theorem C1_uid_byte_order (a b : List Nat) (hl : a.length = b.length)
    (ha : ∀ d ∈ a, 48 ≤ d ∧ d ≤ 57) (hb : ∀ d ∈ b, 48 ≤ d ∧ d ≤ 57) :
    bytesLt a b = true ↔ uidNum a < uidNum b := by
  constructor
  · exact bytesLt_uidNum_mono a b hl ha hb
  · intro h
    by_cases h1 : bytesLt a b = true
    · exact h1
    · exfalso
      by_cases h2 : bytesLt b a = true
      · have := bytesLt_uidNum_mono b a hl.symm hb ha h2
        omega
      · have heq := bytesLt_eq_of_not a b hl
          (by simpa using h1) (by simpa using h2)
        subst heq
        omega

theorem C1_uid_byte_order_witness :
    ([52, 50] : List Nat).length = ([53, 48] : List Nat).length ∧
    (bytesLt [52, 50] [53, 48] = true ↔ uidNum [52, 50] < uidNum [53, 48]) :=
  ⟨by decide, C1_uid_byte_order [52, 50] [53, 48] (by decide) (by decide) (by decide)⟩

/-- C1 counterexample: identifier b"9" (bytes [57]) denotes numeric UID 9,
smaller than b"10" (bytes [49, 48]) which denotes 10, i.e. b"9" arrived
first, yet the byte-string comparison b"9" < b"10" used by the poller is
false — so byte order does not agree with arrival order in general. -/
theorem C1_uid_byte_order_counterexample :
    bytesLt [57] [49, 48] = false ∧ uidNum [57] < uidNum [49, 48] := by decide

theorem bytesLt_trans : ∀ a b c : List Nat,
    bytesLt a b = true → bytesLt b c = true → bytesLt a c = true := by
  intro a
  induction a with
  | nil =>
    intro b c hab hbc
    cases b with
    | nil => simp [bytesLt] at hab
    | cons y bs =>
      cases c with
      | nil => simp [bytesLt] at hbc
      | cons z cs => simp [bytesLt]
  | cons x as ih =>
    intro b c hab hbc
    cases b with
    | nil => simp [bytesLt] at hab
    | cons y bs =>
      cases c with
      | nil => simp [bytesLt] at hbc
      | cons z cs =>
        simp only [bytesLt] at hab hbc ⊢
        by_cases h1 : x < y
        · by_cases h2 : y < z
          · simp [show x < z by omega]
          · by_cases h3 : z < y
            · simp [h2, h3] at hbc
            · have hyz : y = z := by omega
              subst hyz
              simp [h1]
        · by_cases h4 : y < x
          · simp [h1, h4] at hab
          · have hxy : x = y := by omega
            subst hxy
            simp [h1] at hab
            by_cases h2 : x < z
            · simp [h2]
            · by_cases h3 : z < x
              · simp [h2, h3] at hbc
              · have hxz : x = z := by omega
                subst hxz
                simp [h2] at hbc
                simp [h2]
                exact ih bs cs hab hbc

theorem cursorLe_refl (a : Option (List Nat)) : cursorLe a a := by
  cases a with
  | none => trivial
  | some c => exact ⟨c, rfl, Or.inl rfl⟩

theorem cursorLe_trans {a b c : Option (List Nat)}
    (h1 : cursorLe a b) (h2 : cursorLe b c) : cursorLe a c := by
  cases a with
  | none => trivial
  | some x =>
    obtain ⟨d, hb, hrel⟩ := h1
    subst hb
    obtain ⟨e, hc, hrel2⟩ := h2
    refine ⟨e, hc, ?_⟩
    rcases hrel with h | h
    · subst h; exact hrel2
    · rcases hrel2 with h2' | h2'
      · subst h2'; exact Or.inr h
      · exact Or.inr (bytesLt_trans x d e h h2')

theorem unseenLoop_cursorLe (f : List Nat → Option EmailInfo) (now : Int) :
    ∀ (uids processed : List (List Nat)) (cursor : Option (List Nat))
      (emails : List EmailInfo),
      cursorLe cursor (unseenLoop f now uids (processed, cursor, emails)).2.1 := by
  intro uids
  induction uids with
  | nil =>
    intro processed cursor emails
    exact cursorLe_refl cursor
  | cons uid rest ih =>
    intro processed cursor emails
    simp only [unseenLoop]
    by_cases hmem : uid ∈ processed
    · simp only [if_pos hmem]
      exact ih processed cursor emails
    · simp only [if_neg hmem]
      by_cases hcl : cursorLt cursor uid = true
      · simp only [if_pos hcl]
        have hstep : cursorLe cursor (some uid) := by
          cases cursor with
          | none => trivial
          | some c => exact ⟨uid, rfl, Or.inr (by simpa [cursorLt] using hcl)⟩
        cases hf : f uid with
        | none =>
          dsimp only
          exact ih _ cursor emails
        | some info =>
          dsimp only
          cases ht : info.time with
          | some ts =>
            dsimp only
            by_cases hrec : now - 120 < ts
            · simp only [if_pos hrec]
              exact cursorLe_trans hstep (ih _ (some uid) _)
            · simp only [if_neg hrec]
              exact cursorLe_trans hstep (ih _ (some uid) _)
          | none =>
            dsimp only
            exact cursorLe_trans hstep (ih _ (some uid) _)
      · simp only [if_neg hcl]
        exact ih _ cursor emails

theorem allLoop_cursorLe (f : List Nat → Option EmailInfo) (now : Int) :
    ∀ (uids processed : List (List Nat)) (c : List Nat) (emails : List EmailInfo),
      cursorLe (some c) (some (allLoop f now uids (processed, c, emails)).2.1) := by
  intro uids
  induction uids with
  | nil =>
    intro processed c emails
    exact cursorLe_refl _
  | cons uid rest ih =>
    intro processed c emails
    simp only [allLoop]
    by_cases hmem : uid ∈ processed
    · simp only [if_pos hmem]
      exact ih processed c emails
    · simp only [if_neg hmem]
      by_cases hlt : bytesLt c uid = true
      · simp only [if_pos hlt]
        have hstep : cursorLe (some c) (some uid) := ⟨uid, rfl, Or.inr hlt⟩
        cases hf : f uid with
        | none =>
          dsimp only
          exact ih _ c emails
        | some info =>
          dsimp only
          cases ht : info.time with
          | some ts =>
            dsimp only
            by_cases hrec : now - 120 < ts
            · simp only [if_pos hrec]
              exact cursorLe_trans hstep (ih _ uid _)
            · simp only [if_neg hrec]
              exact cursorLe_trans hstep (ih _ uid _)
          | none =>
            dsimp only
            exact cursorLe_trans hstep (ih _ uid _)
      · simp only [if_neg hlt]
        exact ih processed c emails

theorem check_and_notify_cursorLe (st : NotifierState) (env : PollEnv) (now : Int) :
    cursorLe st.last_uid (check_and_notify st env now).1.last_uid := by
  have hup : cursorLe st.last_uid (unseenPass env now st.last_uid).2.1 := by
    unfold unseenPass
    cases env.unseen with
    | none => exact cursorLe_refl _
    | some uids => exact unseenLoop_cursorLe env.fetch now uids [] st.last_uid []
  by_cases hc : env.connectOk = false
  · simp only [check_and_notify, if_pos hc]
    exact cursorLe_refl _
  · by_cases hr : env.allRaises = true
    · simp only [check_and_notify, if_neg hc, if_pos hr]
      exact hup
    · cases hall : env.allRes with
      | none =>
        by_cases he : (unseenPass env now st.last_uid).2.2.isEmpty = true
        · simp only [check_and_notify, if_neg hc, if_neg hr, hall, if_pos he]
          exact hup
        · simp only [check_and_notify, if_neg hc, if_neg hr, hall, if_neg he]
          exact hup
      | some allUids =>
        cases hcur : (unseenPass env now st.last_uid).2.1 with
        | none =>
          have hstn : st.last_uid = none := by
            cases hst : st.last_uid with
            | none => rfl
            | some c =>
              rw [hst] at hup hcur
              obtain ⟨d, hd, _⟩ := hup
              rw [hcur] at hd
              cases hd
          simp only [hstn]
          exact trivial
        | some c =>
          have h1 : cursorLe st.last_uid (some c) := by rw [← hcur]; exact hup
          have h2 := allLoop_cursorLe env.fetch now allUids
            (unseenPass env now st.last_uid).1 c (unseenPass env now st.last_uid).2.2
          by_cases he : (allLoop env.fetch now allUids
              ((unseenPass env now st.last_uid).1, c,
               (unseenPass env now st.last_uid).2.2)).2.2.isEmpty = true
          · simp only [check_and_notify, if_neg hc, if_neg hr, hall, hcur, if_pos he]
            exact cursorLe_trans h1 h2
          · simp only [check_and_notify, if_neg hc, if_neg hr, hall, hcur, if_neg he]
            exact cursorLe_trans h1 h2

/-- C8: over any sequence of polls — successful, empty or failing — the
poller's cursor is non-decreasing in the byte ordering the poller uses:
once set it is only ever kept or replaced by a strictly greater
identifier, and it never regresses or becomes unset. -/
theorem C8_cursor_monotone (st : NotifierState) (steps : List (PollEnv × Int)) :
    cursorLe st.last_uid (pollSeq st steps).last_uid := by
  induction steps generalizing st with
  | nil => exact cursorLe_refl _
  | cons p rest ih =>
    cases p with
    | mk env now =>
      exact cursorLe_trans (check_and_notify_cursorLe st env now) (ih _)

theorem getLast?_append_singleton {α : Type} (l : List α) (a : α) :
    (l ++ [a]).getLast? = some a := by
  induction l with
  | nil => rfl
  | cons x xs ih =>
    rw [List.cons_append, List.getLast?_cons]
    simp [ih]

/-- C2 (amended): for a freshly created poller (cursor unset) against a
non-empty mailbox, provided the UNSEEN pass leaves the cursor unset (for
example, the mailbox reports no unseen messages), the first poll returns
no notifications and sets the cursor to the newest (last-listed)
identifier, the baseline from which later polls notify.  Unseen mail
present at first contact is processed before this baseline check and can
be returned by the first poll; see the counterexample. -/
theorem C2_baseline_first_poll (m : Bool) (lsc : Option Int) (env : PollEnv)
    (l : List (List Nat)) (u : List Nat) (now : Int)
    (hc : env.connectOk = true) (hr : env.allRaises = false)
    (hall : env.allRes = some (l ++ [u]))
    (hu : (unseenPass env now none).2.1 = none) :
    check_and_notify ⟨none, m, lsc⟩ env now = (⟨some u, true, some now⟩, none) := by
  have hu2 : (unseenPass env now (NotifierState.mk none m lsc).last_uid).2.1 = none := hu
  simp only [check_and_notify, hc, hr, hu2, hall]
  simp [getLast?_append_singleton]

theorem C2_baseline_first_poll_witness :
    check_and_notify ⟨none, false, none⟩
        ⟨true, none, false, some [[49]], fun _ => none⟩ 0
      = (⟨some [49], true, some 0⟩, none) :=
  C2_baseline_first_poll false none ⟨true, none, false, some [[49]], fun _ => none⟩
    [] [49] 0 rfl rfl rfl rfl

/-- C2 counterexample: a fresh poller (cursor unset) polled against a
non-empty mailbox whose single message (UID bytes [50]) is still unseen
and has an unparseable Date: the UNSEEN pass runs before the baseline
check, so the very first poll returns that message as a notification
instead of returning zero notifications. -/
theorem C2_baseline_first_poll_counterexample :
    (check_and_notify ⟨none, false, none⟩
        ⟨true, some [[50]], false, some [[50]],
         fun u => if u = [50] then some ⟨none, "s", "b"⟩ else none⟩ 0).2
      = some [⟨none, "s", "b"⟩] := by decide

/-- C3 (amended): when the connection attempt itself fails, the poll
returns no notifications, discards the connection handle and leaves the
cursor exactly as it was.  When an error is raised later (the all-mail
search), the poll still returns no notifications and discards the
connection, but the cursor keeps whatever advancement the UNSEEN pass
made before the error — messages that pass accounted for are neither
returned nor revisited. -/
theorem C3_error_discard (st : NotifierState) (env : PollEnv) (now : Int) :
    (env.connectOk = false →
      check_and_notify st env now = ({ st with mailConnected := false }, none)) ∧
    (env.connectOk = true → env.allRaises = true →
      check_and_notify st env now
        = ({ st with last_uid := (unseenPass env now st.last_uid).2.1, mailConnected := false }, none)) := by
  constructor
  · intro h
    simp [check_and_notify, h]
  · intro h1 h2
    simp [check_and_notify, h1, h2]

theorem C3_error_discard_witness :
    check_and_notify ⟨some [49], true, none⟩
        ⟨false, none, false, none, fun _ => none⟩ 0
      = (⟨some [49], false, none⟩, none) ∧
    check_and_notify ⟨some [49], true, none⟩
        ⟨true, none, true, none, fun _ => none⟩ 0
      = (⟨some [49], false, none⟩, none) := by
  constructor
  · exact (C3_error_discard ⟨some [49], true, none⟩
      ⟨false, none, false, none, fun _ => none⟩ 0).1 rfl
  · exact (C3_error_discard ⟨some [49], true, none⟩
      ⟨true, none, true, none, fun _ => none⟩ 0).2 rfl rfl

/-- C3 counterexample: cursor starts at b"1" (bytes [49]); the UNSEEN pass
fetches the unseen message with UID b"2" (bytes [50], unparseable Date,
hence slated for notification) and advances the cursor, and then the
all-mail search raises.  The poll returns no notifications and discards
the connection, but the cursor after the call is b"2", not its pre-call
value b"1" — the message counted by the cursor was never emitted. -/
theorem C3_error_discard_counterexample :
    check_and_notify ⟨some [49], true, none⟩
        ⟨true, some [[50]], true, none,
         fun u => if u = [50] then some ⟨none, "s", "b"⟩ else none⟩ 0
      = (⟨some [50], false, none⟩, none) := by decide

/-- C4: in the Active state (cursor set), a message with identifier above
the cursor that the poll fetches is returned as a notification iff its
receivedAt is unknown (unparseable Date) or lies within the trailing
120-second window; in either case, emitted or suppressed, the cursor
advances past the message. -/
theorem C4_recency_window (c v : List Nat) (t : Option Int) (s b : String)
    (m : Bool) (lsc : Option Int) (f : List Nat → Option EmailInfo) (now : Int)
    (hf : f v = some ⟨t, s, b⟩) (hlt : bytesLt c v = true) :
    (check_and_notify ⟨some c, m, lsc⟩ ⟨true, none, false, some [v], f⟩ now).2
        = (if recentOrUnknown t now then some [⟨t, s, b⟩] else none) ∧
    (check_and_notify ⟨some c, m, lsc⟩ ⟨true, none, false, some [v], f⟩ now).1.last_uid
        = some v ∧
    (recentOrUnknown t now = true ↔
      (t = none ∨ ∃ ts, t = some ts ∧ now - 120 < ts)) := by
  cases t with
  | none =>
    refine ⟨?_, ?_, ?_⟩
    · simp [check_and_notify, unseenPass, allLoop, hf, hlt, recentOrUnknown]
    · simp [check_and_notify, unseenPass, allLoop, hf, hlt]
    · simp [recentOrUnknown]
  | some ts =>
    by_cases hrec : now - 120 < ts
    · refine ⟨?_, ?_, ?_⟩
      · simp [check_and_notify, unseenPass, allLoop, hf, hlt, recentOrUnknown, hrec]
      · simp [check_and_notify, unseenPass, allLoop, hf, hlt, hrec]
      · simp [recentOrUnknown, hrec]
    · refine ⟨?_, ?_, ?_⟩
      · simp [check_and_notify, unseenPass, allLoop, hf, hlt, recentOrUnknown, hrec]
      · simp [check_and_notify, unseenPass, allLoop, hf, hlt, hrec]
      · simp [recentOrUnknown, hrec]

/-- Witness for C4 at the spec's two instances: with the clock at 1000,
a message received at 879 (now − 121 s) advances the cursor but is not
emitted, and a message received at 990 (now − 10 s) is emitted. -/
theorem C4_recency_window_witness :
    (check_and_notify ⟨some [49], false, none⟩
        ⟨true, none, false, some [[50]],
         fun u => if u = [50] then some ⟨some 879, "s", "b"⟩ else none⟩ 1000).2
      = none ∧
    (check_and_notify ⟨some [49], false, none⟩
        ⟨true, none, false, some [[50]],
         fun u => if u = [50] then some ⟨some 879, "s", "b"⟩ else none⟩ 1000).1.last_uid
      = some [50] ∧
    (check_and_notify ⟨some [49], false, none⟩
        ⟨true, none, false, some [[50]],
         fun u => if u = [50] then some ⟨some 990, "s", "b"⟩ else none⟩ 1000).2
      = some [⟨some 990, "s", "b"⟩] := by
  refine ⟨?_, ?_, ?_⟩
  · exact ((C4_recency_window [49] [50] (some 879) "s" "b" false none
      (fun u => if u = [50] then some ⟨some 879, "s", "b"⟩ else none) 1000
      (by decide) (by decide)).1).trans (by decide)
  · exact (C4_recency_window [49] [50] (some 879) "s" "b" false none
      (fun u => if u = [50] then some ⟨some 879, "s", "b"⟩ else none) 1000
      (by decide) (by decide)).2.1
  · exact ((C4_recency_window [49] [50] (some 990) "s" "b" false none
      (fun u => if u = [50] then some ⟨some 990, "s", "b"⟩ else none) 1000
      (by decide) (by decide)).1).trans (by decide)

/-- C5 (code bug): `stop()` on a monitor that is not running is a no-op,
but `stop()` on a running monitor with at least one poller raises
`AttributeError` instead of closing the pollers' connections, because it
calls `notifier.cleanup()` and `EmailNotifier` defines no `cleanup`
method (its connection-closing method is `reset_connection`). -/
theorem C5_stop_raises :
    stopMonitor ⟨true, true, ["user@example.com"]⟩ = Except.error PyErr.attributeError ∧
    stopMonitor ⟨false, false, []⟩ = Except.ok ⟨false, false, []⟩ ∧
    List.contains emailNotifierMethods "cleanup" = false :=
  ⟨rfl, rfl, rfl⟩

/-- C6 (code bug): a rebuild never carries the cursor forward.  In
src/main.py the rebuild completes but creates every poller with an empty
cursor, dropping the cursor of a user present before and after the
rebuild; in src/core/monitor.py the carry-forward logic exists but the
rebuild calls the nonexistent `EmailNotifier.cleanup` first, so with any
existing poller it raises `AttributeError` before rebuilding. -/
theorem C6_rebuild_cursor :
    init_notifiers_main [("imap.example.com", "u@example.com", "pw")]
      = [⟨"u@example.com", none, none⟩] ∧
    init_notifiers [⟨"u@example.com", some [53], some 100⟩]
        [("imap.example.com", "u@example.com", "pw")]
      = Except.error PyErr.attributeError :=
  ⟨rfl, rfl⟩

/-- C7: if a notification with some dedup key is forwarded (not a
duplicate), then as long as no bulk clear intervenes, a second
notification with the same key — same user, same subject, and receivedAt
equal up to the minute (or both unknown) — is reported duplicate and
dropped, so exactly one of the two is delivered; once the set's age
exceeds the clear interval, the identical notification is forwarded
again.  Two datetimes differing only in seconds always produce the same
dedup key. -/
theorem C7_dedup_window (st : DedupState) (now now2 now3 : Int)
    (user subject : String) (t1 t2 : Option PyDateTime)
    (hkey : get_dedup_key user subject t1 = get_dedup_key user subject t2)
    (hfirst : (is_duplicate st now user subject t1).1 = false)
    (hnoclear : now2 - (is_duplicate st now user subject t1).2.cleanup_time ≤ DEDUP_CLEANUP_INTERVAL)
    (hclear : DEDUP_CLEANUP_INTERVAL < now3 - (is_duplicate st now user subject t1).2.cleanup_time) :
    (is_duplicate (is_duplicate st now user subject t1).2 now2 user subject t2).1 = true ∧
    (is_duplicate (is_duplicate st now user subject t1).2 now3 user subject t2).1 = false ∧
    (∀ (a : PyDateTime) (s2 : Nat),
      get_dedup_key user subject (some a)
        = get_dedup_key user subject (some { a with second := s2 })) := by
  set stp := (is_duplicate st now user subject t1).2 with hstp
  have hmem : get_dedup_key user subject t2 ∈ stp.sent_emails := by
    rw [← hkey, hstp]
    simp only [is_duplicate] at hfirst ⊢
    by_cases hcl : DEDUP_CLEANUP_INTERVAL < now - st.cleanup_time
    · simp only [if_pos hcl] at hfirst ⊢
      by_cases hm : get_dedup_key user subject t1 ∈ ([] : List String)
      · simp at hm
      · simp [hm]
    · simp only [if_neg hcl] at hfirst ⊢
      by_cases hm : get_dedup_key user subject t1 ∈ st.sent_emails
      · simp [hm] at hfirst
      · simp [hm]
  refine ⟨?_, ?_, ?_⟩
  · have hnc : ¬ (DEDUP_CLEANUP_INTERVAL < now2 - stp.cleanup_time) := by omega
    simp only [is_duplicate, if_neg hnc]
    simp [hmem]
  · simp only [is_duplicate, if_pos hclear]
    simp
  · intro a s2
    rfl

/-- Witness for C7: same account, subject and minute (seconds differ), no
clear between the first two deliveries (ages 10 s and 50 s), then a call
after the 300 s clear interval: the second delivery is suppressed, the
later one goes through again. -/
theorem C7_dedup_window_witness :
    (is_duplicate (is_duplicate ⟨[], 0⟩ 10 "u@example.com" "Hi"
        (some ⟨2026, 10, 12, 9, 30, 15⟩)).2 50 "u@example.com" "Hi"
        (some ⟨2026, 10, 12, 9, 30, 45⟩)).1 = true ∧
    (is_duplicate (is_duplicate ⟨[], 0⟩ 10 "u@example.com" "Hi"
        (some ⟨2026, 10, 12, 9, 30, 15⟩)).2 400 "u@example.com" "Hi"
        (some ⟨2026, 10, 12, 9, 30, 45⟩)).1 = false := by
  have h := C7_dedup_window ⟨[], 0⟩ 10 50 400 "u@example.com" "Hi"
    (some ⟨2026, 10, 12, 9, 30, 15⟩) (some ⟨2026, 10, 12, 9, 30, 45⟩)
    (by decide) (by decide) (by decide) (by decide)
  exact ⟨h.1, h.2.1⟩

set_option maxRecDepth 10000 in
/-- C9: the spec's two extraction vectors.  The HTML body
`<p>Hi&nbsp;there</p>` with character budget 50 extracts to the body
excerpt "Hi there"; a 200-character plain-text body (200 times 'a') with
budget 50 yields its first 50 characters followed by "...", a
53-character excerpt. -/
theorem C9_extraction_vectors :
    process_content 50 (html_to_text "<p>Hi&nbsp;there</p>".toList) = "Hi there".toList ∧
    process_content 50 (List.replicate 200 'a')
      = List.replicate 50 'a' ++ ['.', '.', '.'] ∧
    (process_content 50 (List.replicate 200 'a')).length = 53 := by decide

theorem splitWordsAux_words (s : List Char) : ∀ (cur : List Char),
    (∀ c ∈ cur, isPySpace c = false) →
    ∀ w ∈ splitWordsAux cur s, w ≠ [] ∧ ∀ c ∈ w, isPySpace c = false := by
  induction s with
  | nil =>
    intro cur hcur w hw
    simp only [splitWordsAux] at hw
    by_cases hc : cur.isEmpty = true
    · simp [hc] at hw
    · rw [if_neg hc] at hw
      rcases List.mem_singleton.mp hw with h
      subst h
      refine ⟨?_, hcur⟩
      intro hnil
      rw [hnil] at hc
      exact hc rfl
  | cons c cs ih =>
    intro cur hcur w hw
    simp only [splitWordsAux] at hw
    by_cases hsp : isPySpace c = true
    · rw [if_pos hsp] at hw
      by_cases hc : cur.isEmpty = true
      · rw [if_pos hc] at hw
        exact ih [] (by simp) w hw
      · rw [if_neg hc] at hw
        rcases List.mem_cons.mp hw with h | h
        · subst h
          refine ⟨?_, hcur⟩
          intro hnil
          rw [hnil] at hc
          exact hc rfl
        · exact ih [] (by simp) w h
    · rw [if_neg hsp] at hw
      refine ih (cur ++ [c]) ?_ w hw
      intro x hx
      rcases List.mem_append.mp hx with h | h
      · exact hcur x h
      · rw [List.mem_singleton.mp h]
        simpa using hsp

theorem joinWords_ne_nil (w : List Char) (ws : List (List Char)) (hw : w ≠ []) :
    joinWords (w :: ws) ≠ [] := by
  cases ws with
  | nil => simpa [joinWords] using hw
  | cons w2 ws2 =>
    simp only [joinWords]
    intro h
    rcases List.append_eq_nil.mp h with ⟨_, h2⟩
    cases h2

theorem joinWords_head (ws : List (List Char))
    (h : ∀ w ∈ ws, w ≠ [] ∧ ∀ c ∈ w, isPySpace c = false) :
    joinWords ws = [] ∨
    ∃ c r, joinWords ws = c :: r ∧ isPySpace c = false := by
  cases ws with
  | nil => left; rfl
  | cons w ws2 =>
    right
    obtain ⟨hne, hchars⟩ := h w (by simp)
    cases hwc : w with
    | nil => exact absurd hwc hne
    | cons c w2 =>
      cases ws2 with
      | nil =>
        exact ⟨c, w2, by simp [joinWords, hwc], hchars c (by simp [hwc])⟩
      | cons w3 ws3 =>
        exact ⟨c, w2 ++ ' ' :: joinWords (w3 :: ws3), by simp [joinWords, hwc],
          hchars c (by simp [hwc])⟩

theorem joinWords_concat (ws : List (List Char))
    (h : ∀ w ∈ ws, w ≠ [] ∧ ∀ c ∈ w, isPySpace c = false) :
    joinWords ws = [] ∨
    ∃ m c, joinWords ws = m ++ [c] ∧ isPySpace c = false := by
  induction ws with
  | nil => left; rfl
  | cons w ws2 ih =>
    right
    obtain ⟨hne, hchars⟩ := h w (by simp)
    cases ws2 with
    | nil =>
      rcases List.eq_nil_or_concat w with h0 | ⟨m, c, h0⟩
      · exact absurd h0 hne
      · refine ⟨m, c, by simp [joinWords, h0], ?_⟩
        exact hchars c (by simp [h0])
    | cons w3 ws3 =>
      have hih := ih (fun x hx => h x (List.mem_cons_of_mem w hx))
      rcases hih with h0 | ⟨m, c, hmc, hc⟩
      · exact absurd h0 (joinWords_ne_nil w3 ws3 (h w3 (by simp)).1)
      · refine ⟨w ++ ' ' :: m, c, ?_, hc⟩
        simp [joinWords, hmc]

theorem stripL_of_head (c : Char) (r : List Char) (h : isPySpace c = false) :
    stripL (c :: r) = c :: r := by
  simp [stripL, List.dropWhile_cons, h]

theorem stripStr_noop (s : List Char)
    (hhead : ∃ c r, s = c :: r ∧ isPySpace c = false)
    (hlast : ∃ m c, s = m ++ [c] ∧ isPySpace c = false) :
    stripStr s = s := by
  obtain ⟨c, r, hcr, hc⟩ := hhead
  obtain ⟨m, d, hmd, hd⟩ := hlast
  subst hcr
  have h1 : stripL (c :: r) = c :: r := stripL_of_head c r hc
  simp only [stripStr, h1]
  rw [hmd]
  simp [List.dropWhile_cons, hd]

theorem joinWords_splitWords_shape (t : List Char) :
    joinWords (splitWords t) = [] ∨
    ((∃ c r, joinWords (splitWords t) = c :: r ∧ isPySpace c = false) ∧
     (∃ m c, joinWords (splitWords t) = m ++ [c] ∧ isPySpace c = false)) := by
  have hw := splitWordsAux_words t [] (by simp)
  rcases joinWords_head _ hw with h | hhead
  · left; exact h
  · right
    refine ⟨hhead, ?_⟩
    rcases joinWords_concat _ hw with h | hlast
    · obtain ⟨c, r, hcr, _⟩ := hhead
      rw [h] at hcr
      cases hcr
    · exact hlast

theorem stripStr_normal (t : List Char) :
    stripStr (joinWords (splitWords t)) = joinWords (splitWords t) := by
  rcases joinWords_splitWords_shape t with h | ⟨hh, hl⟩
  · rw [h]; rfl
  · exact stripStr_noop _ hh hl

theorem stripStr_trunc (n : List Char) (k : Nat)
    (hn : n = [] ∨ ∃ c r, n = c :: r ∧ isPySpace c = false) :
    stripStr (n.take k ++ ['.', '.', '.']) = n.take k ++ ['.', '.', '.'] := by
  apply stripStr_noop
  · cases k with
    | zero => exact ⟨'.', ['.', '.'], by simp, by decide⟩
    | succ k2 =>
      rcases hn with h | ⟨c, r, hcr, hc⟩
      · subst h; exact ⟨'.', ['.', '.'], by simp, by decide⟩
      · subst hcr
        exact ⟨c, r.take k2 ++ ['.', '.', '.'], by simp, hc⟩
  · exact ⟨n.take k ++ ['.', '.'], '.', by simp, by decide⟩

theorem isEmpty_false_of_ne_nil (l : List Char) (h : l ≠ []) : l.isEmpty = false := by
  cases l with
  | nil => exact absurd rfl h
  | cons a r => rfl

/-- C10 (implicit): `_process_content` never returns the empty string: when
the whitespace-normalized text exceeds the character budget the result is
exactly its first `text_num` characters followed by "..." (length
`text_num + 3`); otherwise it is the normalized text itself; and an empty
or whitespace-only input yields the fixed non-empty placeholder. -/
theorem C10_process_content (s : List Char) (text_num : Nat) :
    (s ≠ [] → text_num < (normalizeText s).length →
      process_content text_num s = (normalizeText s).take text_num ++ ['.', '.', '.'] ∧
      (process_content text_num s).length = text_num + 3) ∧
    (s ≠ [] → (normalizeText s).length ≤ text_num → normalizeText s ≠ [] →
      process_content text_num s = normalizeText s) ∧
    ((s = [] ∨ normalizeText s = []) → process_content text_num s = placeholderText) ∧
    process_content text_num s ≠ [] := by
  have hnorm : stripStr (normalizeText s) = normalizeText s := stripStr_normal _
  by_cases hs0 : s = []
  · subst hs0
    have hpc : process_content text_num ([] : List Char) = placeholderText := rfl
    refine ⟨?_, ?_, ?_, ?_⟩
    · intro h
      exact absurd rfl h
    · intro h
      exact absurd rfl h
    · intro _
      exact hpc
    · rw [hpc]; decide
  · have hse : s.isEmpty = false := isEmpty_false_of_ne_nil s hs0
    have hpc : process_content text_num s =
        (if (stripStr (if text_num < (normalizeText s).length then
              (normalizeText s).take text_num ++ ['.', '.', '.']
            else normalizeText s)).isEmpty then placeholderText
         else stripStr (if text_num < (normalizeText s).length then
              (normalizeText s).take text_num ++ ['.', '.', '.']
            else normalizeText s)) := by
      simp [process_content, hse]
    have hshape : normalizeText s = [] ∨
        ((∃ c r, normalizeText s = c :: r ∧ isPySpace c = false) ∧
         (∃ m c, normalizeText s = m ++ [c] ∧ isPySpace c = false)) :=
      joinWords_splitWords_shape _
    rcases hshape with hn0 | ⟨hh, hl⟩
    · have hres : process_content text_num s = placeholderText := by
        rw [hpc, hn0]
        simp [stripStr, stripL]
      refine ⟨?_, ?_, ?_, ?_⟩
      · intro _ hlen
        rw [hn0] at hlen
        simp at hlen
      · intro _ _ hne
        exact absurd hn0 hne
      · intro _
        exact hres
      · rw [hres]; decide
    · have hne : normalizeText s ≠ [] := by
        obtain ⟨c, r, hcr, _⟩ := hh
        rw [hcr]
        simp
      refine ⟨?_, ?_, ?_, ?_⟩
      · intro _ hlen
        have htr := stripStr_trunc (normalizeText s) text_num (Or.inr hh)
        have hX : ((normalizeText s).take text_num ++ ['.', '.', '.']).isEmpty = false :=
          isEmpty_false_of_ne_nil _ (by simp)
        have hres : process_content text_num s
            = (normalizeText s).take text_num ++ ['.', '.', '.'] := by
          rw [hpc, if_pos hlen, htr, hX]
          simp
        refine ⟨hres, ?_⟩
        rw [hres]
        simp [List.length_take]
        omega
      · intro _ hle hne2
        have hnl : ¬ text_num < (normalizeText s).length := by omega
        have hX : (normalizeText s).isEmpty = false := isEmpty_false_of_ne_nil _ hne2
        rw [hpc, if_neg hnl, hnorm, hX]
        simp
      · intro hdisj
        rcases hdisj with h | h
        · exact absurd h hs0
        · exact absurd h hne
      · by_cases hlen : text_num < (normalizeText s).length
        · have htr := stripStr_trunc (normalizeText s) text_num (Or.inr hh)
          have hX : ((normalizeText s).take text_num ++ ['.', '.', '.']).isEmpty = false :=
            isEmpty_false_of_ne_nil _ (by simp)
          rw [hpc, if_pos hlen, htr, hX]
          simp
        · have hX : (normalizeText s).isEmpty = false := isEmpty_false_of_ne_nil _ hne
          rw [hpc, if_neg hlen, hnorm, hX]
          simp [hne]

/-- Witness for C10: a body whose normalization "hello world" exceeds
budget 5 is truncated to "hello..."; a whitespace-only body yields the
placeholder; a short body is returned normalized and unchanged. -/
theorem C10_process_content_witness :
    process_content 5 "  hello   world  ".toList = "hello...".toList ∧
    process_content 50 "   ".toList = placeholderText ∧
    process_content 50 "a b".toList = "a b".toList := by
  refine ⟨?_, ?_, ?_⟩
  · have h := (C10_process_content "  hello   world  ".toList 5).1 (by decide) (by decide)
    exact h.1.trans (by decide)
  · exact (C10_process_content "   ".toList 50).2.2.1 (Or.inr (by decide))
  · have h := (C10_process_content "a b".toList 50).2.1 (by decide) (by decide) (by decide)
    exact h.trans (by decide)
